import Mathlib

/-!
Shallow embedding of the TrustBridge backend and proofs about it.

The Python sources embedded here are:
* `app/utils/helpers.py` (`validate_solana_address`, `calculate_match_score`),
* `app/services/credibility_service.py` (`CredibilityService`),
* `app/services/matching_service.py` (`MatchingService`),
* `app/api/users.py` (`delete_user`),
* `scripts/cleanup_mock_investments.py`.

Python floats are modelled as rationals (`ℚ`); `round(x, n)` is modelled as
round-half-up on rationals.  Database state is modelled as explicit lists of
rows, one list per table; SQLAlchemy queries become list traversals and a
commit becomes returning the updated state.
-/

/-- Model of Python `round(x, 2)` on rationals: round half up to 2 decimals.
(Python uses banker's rounding on binary floats; the two agree away from exact
half-ties, and no claim in this development depends on a tie.) -/
def round2 (x : ℚ) : ℚ := (⌊x * 100 + 1/2⌋ : ℚ) / 100

/-- Model of Python `round(x, 3)` on rationals: round half up to 3 decimals. -/
def round3 (x : ℚ) : ℚ := (⌊x * 1000 + 1/2⌋ : ℚ) / 1000

/-- The base58 character set from `helpers.validate_solana_address`
(`'123456789ABCDEFGHJKLMNPQRSTUVWXYZabcdefghijkmnopqrstuvwxyz'`). -/
def valid_chars : List Char :=
  "123456789ABCDEFGHJKLMNPQRSTUVWXYZabcdefghijkmnopqrstuvwxyz".data

/-- Embedding of `helpers.validate_solana_address`.  `not address` in Python is
the emptiness test on the string. -/
def validate_solana_address (address : String) : Bool :=
  if address.length == 0 || address.length < 32 || address.length > 44 then false
  else if !(address.data.all (fun c => decide (c ∈ valid_chars))) then false
  else true

/-- The weighted sum inside `helpers.calculate_match_score`:
`skills*0.40 + location*0.20 + degree*0.20 + experience*0.10 + verified*0.10`. -/
def raw_weighted_score (skills_match location_match degree_match experience_match : ℚ)
    (verified : Bool) : ℚ :=
  skills_match * (40/100) + location_match * (20/100) + degree_match * (20/100) +
    experience_match * (10/100) + (if verified then (1:ℚ) else 0) * (10/100)

/-- The post-processing inside `helpers.calculate_match_score`: cap at 0.95,
zero out anything below 0.25, round survivors to 3 decimals. -/
def cap_and_threshold (score : ℚ) : ℚ :=
  let capped := min score (95/100)
  if capped < 25/100 then 0 else round3 capped

/-- Embedding of `helpers.calculate_match_score`. -/
def calculate_match_score (skills_match location_match degree_match experience_match : ℚ)
    (verified : Bool) : ℚ :=
  cap_and_threshold
    (raw_weighted_score skills_match location_match degree_match experience_match verified)

/-- Embedding of `CredibilityService._get_credibility_grade`. -/
def get_credibility_grade (score : ℚ) : String :=
  if score ≥ 80 then "A+"
  else if score ≥ 70 then "A"
  else if score ≥ 60 then "B"
  else if score ≥ 50 then "C"
  else if score ≥ 40 then "D"
  else "F"

/-- ASCII lower-casing of a string, modelling Python `str.lower()` on the
ASCII skill names handled by the matching service. -/
def lowerStr (s : String) : String := ⟨s.data.map Char.toLower⟩

/-- Embedding of `MatchingService._calculate_skills_match_fast`.  The user's
pre-computed skill set is modelled as a list queried only through membership;
`{s.lower() for s in required_skills}` is the deduplicated list of lower-cased
required skills, and `len(required_set.intersection(user_skills_set))` is the
length of its sublist of members of the user set. -/
def calculate_skills_match_fast (required_skills : List String)
    (user_skills_set : List String) : ℚ :=
  if required_skills.isEmpty then 1
  else if user_skills_set.isEmpty then 3/10
  else
    let required_set := (required_skills.map lowerStr).dedup
    let matchCount := (required_set.filter (fun s => user_skills_set.contains s)).length
    let base_score : ℚ := (matchCount : ℚ) / (required_skills.length : ℚ)
    if base_score = 0 then 1/5 else base_score

/-- The skills-overlap fraction computed inside
`_calculate_skills_match_fast`: deduplicated lower-cased required skills
found in the user's set, divided by the length of the required list. -/
def skills_match_fraction (required_skills user_skills_set : List String) : ℚ :=
  (((required_skills.map lowerStr).dedup.filter
      (fun s => user_skills_set.contains s)).length : ℚ) / (required_skills.length : ℚ)

/-- Boolean test that `pat` is a leading segment of `s` (character lists). -/
def startsWithChars : List Char → List Char → Bool
  | [], _ => true
  | _ :: _, [] => false
  | c :: cs, d :: ds => c == d && startsWithChars cs ds

/-- Semantics of the SQL LIKE pattern `"mock_%"` used by
`cleanup_mock_investments.py` (`Investment.tx_signature.like("mock_%")`):
the literal `mock`, then `_` matching exactly one arbitrary character, then
`%` matching any (possibly empty) tail. -/
def tx_like_mock (s : String) : Bool :=
  startsWithChars "mock".data s.data && decide (5 ≤ s.data.length)

/-- The predicate the spec speaks about: the transaction signature literally
starts with the five characters `mock_`. -/
def starts_with_mock_sentinel (s : String) : Bool :=
  startsWithChars "mock_".data s.data

/-- Row of the `users` table (`app/db/models/user.py`), restricted to the
columns the verified code paths read. -/
structure UserRow where
  id : Nat
  verified_on_chain : Option String
deriving Repr, DecidableEq

/-- Row of the `startups` table (`app/db/models/startup.py`), restricted to
the columns the verified code paths read or write. -/
structure StartupRow where
  id : Nat
  founder_id : Nat
  employees_verified : Option Nat
  credibility_score : ℚ
  transaction_signature : Option String
deriving Repr, DecidableEq

/-- Row of the `jobs` table (`app/db/models/job.py`), restricted to the
columns the verified code paths read. -/
structure JobRow where
  id : Nat
  startup_id : Nat
deriving Repr, DecidableEq

/-- Row of the `cvs` table (`app/db/models/cv.py`). -/
structure CVRow where
  id : Nat
  user_id : Nat
deriving Repr, DecidableEq

/-- Row of the `investments` table (`app/db/models/investment.py`);
`tx_signature` is a non-nullable column. -/
structure InvestmentRow where
  id : Nat
  startup_id : Nat
  investor_id : Nat
  amount : ℚ
  tx_signature : String
deriving Repr, DecidableEq

/-- Row of the `job_matches` table (`app/db/models/job_match.py`). -/
structure JobMatchRow where
  job_id : Nat
  user_id : Nat
  score : ℚ
deriving Repr, DecidableEq

/-- Row of the `job_applications` table (`app/db/models/job_application.py`). -/
structure JobApplicationRow where
  id : Nat
  job_id : Nat
  user_id : Nat
deriving Repr, DecidableEq

/-- The relational state: one list per table, in row order. -/
structure DB where
  users : List UserRow
  startups : List StartupRow
  jobs : List JobRow
  cvs : List CVRow
  investments : List InvestmentRow
  job_matches : List JobMatchRow
  job_applications : List JobApplicationRow
deriving Repr, DecidableEq

/-- Apply `f` to the first element satisfying `p`, leaving the rest unchanged:
the effect of mutating the row returned by `query(...).first()` and
committing. -/
def updateFirst (p : α → Bool) (f : α → α) : List α → List α
  | [] => []
  | a :: as => if p a then f a :: as else a :: updateFirst p f as

/-- Return value of `CredibilityService.calculate_startup_credibility`:
the score, the per-factor sub-scores (empty when the startup is missing), and
the grade (absent from the not-found payload). -/
structure CredibilityResult where
  credibility_score : ℚ
  factors : List (String × ℚ)
  grade : Option String
deriving Repr, DecidableEq

/-- Embedding of `CredibilityService.calculate_startup_credibility`
(`credibility_service.py` lines 10-80).  The returned state is the database
after `db.commit()`.  The on-chain factor's guard
`10 if startup.transaction_signature else 0` is Python truthiness on an
optional string: both `None` and the empty string are falsy. -/
def calculate_startup_credibility (db : DB) (startup_id : Nat) : DB × CredibilityResult :=
  match db.startups.find? (fun st => st.id == startup_id) with
  | none => (db, { credibility_score := 0, factors := [], grade := none })
  | some startup =>
    let employees_verified := startup.employees_verified.getD 0
    let employee_score : ℚ := min 40 ((employees_verified : ℚ) * 8)
    let founder := db.users.find? (fun u => u.id == startup.founder_id)
    let founder_verified : Bool :=
      founder.elim false (fun f => f.verified_on_chain == some "verified")
    let founder_score : ℚ := if founder_verified then 20 else 0
    let total_investment : ℚ :=
      ((db.investments.filter (fun inv => inv.startup_id == startup_id)).map
        (fun inv => inv.amount)).sum
    let investment_score : ℚ := min 30 (total_investment / 10000 * 30)
    let on_chain_score : ℚ :=
      if startup.transaction_signature.elim false (fun s => decide (s ≠ "")) then 10 else 0
    let score := employee_score + founder_score + investment_score + on_chain_score
    let db' := { db with
      startups := updateFirst (fun st => st.id == startup_id)
        (fun st => { st with credibility_score := round2 score }) db.startups }
    (db', { credibility_score := round2 score,
            factors := [("verified_employees", employee_score),
                        ("founder_verification", founder_score),
                        ("investment_traction", investment_score),
                        ("on_chain_legitimacy", on_chain_score)],
            grade := some (get_credibility_grade score) })

/-- Embedding of `cleanup_mock_investments.py`: delete every investment whose
`tx_signature` matches LIKE `"mock_%"`; also returns how many were removed
(the count the script prints). -/
def cleanup_mock_investments (db : DB) : DB × Nat :=
  let mock_investments := db.investments.filter (fun inv => tx_like_mock inv.tx_signature)
  if mock_investments.isEmpty then (db, 0)
  else
    ({ db with
        investments := db.investments.filter (fun inv => !(tx_like_mock inv.tx_signature)) },
     mock_investments.length)

/-- The `deleted` counts in the response of `DELETE /api/users/{user_id}`. -/
structure DeletedCounts where
  cvs : Nat
  job_applications : Nat
  job_matches : Nat
  investments : Nat
  startups : Nat
deriving Repr, DecidableEq

/-- Embedding of `users.delete_user` (`app/api/users.py` lines 323-408).
`none` is the `UserNotFound` response (raised before any deletion); otherwise
the committed state together with the reported counts.  Deleting a set of rows
from a table is filtering them out; the per-row delete loops of the source
remove (1) the user's CVs, (2) the user's applications, (3) the user's
matches, (4) the user's investments, (5) for every startup founded by the
user: each of its jobs' matches and applications, then the job, then the
startup, and (6) the user row; the one `db.commit()` at the end makes the
whole sequence atomic. -/
def delete_user (db : DB) (user_id : Nat) : Option (DB × DeletedCounts) :=
  match db.users.find? (fun u => u.id == user_id) with
  | none => none
  | some _ =>
    let cvs := db.cvs.filter (fun c => c.user_id == user_id)
    let job_applications := db.job_applications.filter (fun a => a.user_id == user_id)
    let job_matches := db.job_matches.filter (fun m => m.user_id == user_id)
    let investments := db.investments.filter (fun i => i.investor_id == user_id)
    let startups := db.startups.filter (fun s => s.founder_id == user_id)
    let startup_jobs := db.jobs.filter (fun j => startups.any (fun s => s.id == j.startup_id))
    some ({ users := db.users.filter (fun u => !(u.id == user_id)),
            startups := db.startups.filter (fun s => !(s.founder_id == user_id)),
            jobs := db.jobs.filter (fun j => !(startups.any (fun s => s.id == j.startup_id))),
            cvs := db.cvs.filter (fun c => !(c.user_id == user_id)),
            investments := db.investments.filter (fun i => !(i.investor_id == user_id)),
            job_matches := db.job_matches.filter (fun m =>
              !(m.user_id == user_id) && !(startup_jobs.any (fun j => j.id == m.job_id))),
            job_applications := db.job_applications.filter (fun a =>
              !(a.user_id == user_id) && !(startup_jobs.any (fun j => j.id == a.job_id))) },
          { cvs := cvs.length,
            job_applications := job_applications.length,
            job_matches := job_matches.length,
            investments := investments.length,
            startups := startups.length })

/-- One entry of the list `matches` built by
`MatchingService.match_user_to_jobs` (only the fields the persistence step
reads: `job_id` and `match_score`). -/
structure MatchEntry where
  job_id : Nat
  score : ℚ
deriving Repr, DecidableEq

/-- Insert `a` in front of the first element `b` with `le a b`. -/
def insertBy (le : α → α → Bool) (a : α) : List α → List α
  | [] => [a]
  | b :: bs => if le a b then a :: b :: bs else b :: insertBy le a bs

/-- Stable insertion sort; with `le a b := b.score ≤ a.score` it models
Python's stable `matches.sort(key=..., reverse=True)`. -/
def sortBy (le : α → α → Bool) : List α → List α
  | [] => []
  | a :: as => insertBy le a (sortBy le as)

/-- Embedding of `MatchingService.match_user_to_jobs` (`matching_service.py`
lines 11-165), on the default path (no `category`/`location` filter).  The
per-job score — the composition of the CV-derived sub-scores through
`calculate_match_score` — is abstracted as the parameter `score_fn`, which
sees only the job row: the source computes it from the jobs, the user's CV
and the startup rows, none of which the persistence step modifies.  The body
keeps jobs whose startup exists (the inner join), keeps scores above `0.1`,
sorts descending by score (stably, like Python `sort(reverse=True)`), takes
the top `limit`, and appends a `JobMatch` row for every kept entry whose
`(job_id, user_id)` pair is not already present. -/
def muj_candidate_matches (score_fn : JobRow → ℚ) (db : DB) : List MatchEntry :=
  ((db.jobs.filter (fun j => db.startups.any (fun s => s.id == j.startup_id))).filter
    (fun j => decide ((1:ℚ)/10 < score_fn j))).map
      (fun j => ({ job_id := j.id, score := score_fn j } : MatchEntry))

/-- The `matches.sort(key=..., reverse=True)` + `matches[:limit]` step:
stable descending sort by score, then the first `limit` entries. -/
def muj_top_matches (score_fn : JobRow → ℚ) (db : DB) (limit : Nat) : List MatchEntry :=
  (sortBy (fun a b => decide (b.score ≤ a.score)) (muj_candidate_matches score_fn db)).take limit

/-- The `existing_job_ids` set: job ids among the top matches for which this
user already has a `JobMatch` row. -/
def muj_existing_job_ids (db : DB) (user_id : Nat) (top : List MatchEntry) : List Nat :=
  (db.job_matches.filter (fun m =>
    (top.any (fun t => t.job_id == m.job_id)) && m.user_id == user_id)).map
      (fun m => m.job_id)

/-- The `new_matches` batch: one `JobMatch` row per kept entry whose
`(job_id, user_id)` pair is not already recorded. -/
def muj_new_matches (db : DB) (user_id : Nat) (top : List MatchEntry) : List JobMatchRow :=
  (top.filter (fun t => !((muj_existing_job_ids db user_id top).contains t.job_id))).map
    (fun t => ({ job_id := t.job_id, user_id := user_id, score := t.score } : JobMatchRow))

def match_user_to_jobs (score_fn : JobRow → ℚ) (db : DB) (user_id : Nat)
    (limit : Nat) : DB × List MatchEntry :=
  match db.users.find? (fun u => u.id == user_id) with
  | none => (db, [])
  | some _ =>
    let top_matches := muj_top_matches score_fn db limit
    ({ db with job_matches := db.job_matches ++ muj_new_matches db user_id top_matches },
     top_matches)

/-- Concrete state for the perfect-score credibility case: 5 verified
employees, a founder with `verified_on_chain = "verified"`, one 10,000 USDC
investment, and a non-null transaction signature. -/
def dbHundred : DB :=
  { users := [{ id := 1, verified_on_chain := some "verified" }],
    startups := [{ id := 1, founder_id := 1, employees_verified := some 5,
                   credibility_score := 0, transaction_signature := some "sigabc" }],
    jobs := [], cvs := [],
    investments := [{ id := 1, startup_id := 1, investor_id := 2, amount := 10000,
                      tx_signature := "realtx" }],
    job_matches := [], job_applications := [] }

/-- Concrete state whose only startup has a present but EMPTY transaction
signature (`some ""`), no employees, an unverified founder and no
investments. -/
def dbEmptySig : DB :=
  { users := [{ id := 1, verified_on_chain := none }],
    startups := [{ id := 1, founder_id := 1, employees_verified := some 0,
                   credibility_score := 0, transaction_signature := some "" }],
    jobs := [], cvs := [], investments := [], job_matches := [], job_applications := [] }

/-- Concrete state with a single investment whose signature starts with
`mocked` (matched by LIKE `mock_%`, yet not starting with `mock_`). -/
def dbMockedLike : DB :=
  { users := [], startups := [], jobs := [], cvs := [],
    investments := [{ id := 1, startup_id := 1, investor_id := 1, amount := 5,
                      tx_signature := "mocked_tx_abc" }],
    job_matches := [], job_applications := [] }

/-- Concrete state with one `mock_`-prefixed investment and one real one. -/
def dbMockMixed : DB :=
  { users := [], startups := [], jobs := [], cvs := [],
    investments := [{ id := 1, startup_id := 1, investor_id := 1, amount := 5,
                      tx_signature := "mock_12345" },
                    { id := 2, startup_id := 1, investor_id := 1, amount := 7,
                      tx_signature := "realSig99" }],
    job_matches := [], job_applications := [] }

/-- Concrete state where user 1 founded startup 10 with job 100, and a second
user 2 has a match and an application on that job. -/
def dbFounder : DB :=
  { users := [{ id := 1, verified_on_chain := none }, { id := 2, verified_on_chain := none }],
    startups := [{ id := 10, founder_id := 1, employees_verified := none,
                   credibility_score := 0, transaction_signature := none }],
    jobs := [{ id := 100, startup_id := 10 }],
    cvs := [{ id := 1, user_id := 1 }],
    investments := [{ id := 1, startup_id := 10, investor_id := 1, amount := 5,
                      tx_signature := "t1" }],
    job_matches := [{ job_id := 100, user_id := 2, score := 1 }],
    job_applications := [{ id := 1, job_id := 100, user_id := 2 }] }

/-- Concrete state for exercising the matching persistence: one user, one
startup with two jobs, no stored matches yet. -/
def dbMatchEx : DB :=
  { users := [{ id := 1, verified_on_chain := none }],
    startups := [{ id := 10, founder_id := 1, employees_verified := none,
                   credibility_score := 0, transaction_signature := none }],
    jobs := [{ id := 100, startup_id := 10 }, { id := 101, startup_id := 10 }],
    cvs := [], investments := [], job_matches := [], job_applications := [] }

theorem round2_eval (n : ℤ) (x : ℚ) (h : x * 100 = (n : ℚ)) : round2 x = (n : ℚ) / 100 := by
  unfold round2
  rw [h, add_comm, Int.floor_add_int]
  norm_num

theorem round2_mono {x y : ℚ} (h : x ≤ y) : round2 x ≤ round2 y := by
  unfold round2
  have h1 : (⌊x * 100 + 1/2⌋ : ℤ) ≤ ⌊y * 100 + 1/2⌋ := Int.floor_le_floor (by linarith)
  have h2 : ((⌊x * 100 + 1/2⌋ : ℤ) : ℚ) ≤ ((⌊y * 100 + 1/2⌋ : ℤ) : ℚ) := by exact_mod_cast h1
  linarith

theorem round3_eval (n : ℤ) (x : ℚ) (h : x * 1000 = (n : ℚ)) : round3 x = (n : ℚ) / 1000 := by
  unfold round3
  rw [h, add_comm, Int.floor_add_int]
  norm_num

theorem round3_mono {x y : ℚ} (h : x ≤ y) : round3 x ≤ round3 y := by
  unfold round3
  have h1 : (⌊x * 1000 + 1/2⌋ : ℤ) ≤ ⌊y * 1000 + 1/2⌋ := Int.floor_le_floor (by linarith)
  have h2 : ((⌊x * 1000 + 1/2⌋ : ℤ) : ℚ) ≤ ((⌊y * 1000 + 1/2⌋ : ℤ) : ℚ) := by exact_mod_cast h1
  linarith

theorem round3_quarter : round3 (25/100) = 25/100 := by
  have := round3_eval 250 (25/100) (by norm_num)
  rw [this]; norm_num

theorem round3_capvalue : round3 (95/100) = 95/100 := by
  have := round3_eval 950 (95/100) (by norm_num)
  rw [this]; norm_num

theorem cap_and_threshold_range (x : ℚ) :
    cap_and_threshold x = 0 ∨
      (25/100 ≤ cap_and_threshold x ∧ cap_and_threshold x ≤ 95/100) := by
  unfold cap_and_threshold
  by_cases h : min x (95/100) < 25/100
  · left; simp [h]
  · right
    simp only [h, if_false]
    constructor
    · calc (25:ℚ)/100 = round3 (25/100) := round3_quarter.symm
        _ ≤ round3 (min x (95/100)) := round3_mono (not_lt.mp h)
    · calc round3 (min x (95/100)) ≤ round3 (95/100) := round3_mono (min_le_right _ _)
        _ = 95/100 := round3_capvalue

theorem cap_and_threshold_mono {x y : ℚ} (h : x ≤ y) :
    cap_and_threshold x ≤ cap_and_threshold y := by
  unfold cap_and_threshold
  have hmin : min x (95/100) ≤ min y (95/100) := min_le_min h le_rfl
  by_cases h1 : min x (95/100) < 25/100 <;> by_cases h2 : min y (95/100) < 25/100 <;>
    simp only [h1, h2, if_true, if_false]
  · exact le_refl 0
  · calc (0:ℚ) ≤ 25/100 := by norm_num
      _ = round3 (25/100) := round3_quarter.symm
      _ ≤ round3 (min y (95/100)) := round3_mono (not_lt.mp h2)
  · exact absurd (lt_of_le_of_lt hmin h2) h1
  · exact round3_mono hmin

/-- C9: `validate_solana_address` returns `false` for every string shorter
than 32 or longer than 44 characters, `false` for every string containing a
character outside the base58 alphabet (in particular `0`, `O`, `I`, `l`), and
returns `true` exactly when the length is in `[32, 44]` and every character
is in the base58 alphabet. -/
theorem validate_solana_address_spec (s : String) :
    ((s.length < 32 ∨ 44 < s.length) → validate_solana_address s = false) ∧
    ((∃ c ∈ s.data, c ∉ valid_chars) → validate_solana_address s = false) ∧
    ((∃ c ∈ s.data, c = '0' ∨ c = 'O' ∨ c = 'I' ∨ c = 'l') →
      validate_solana_address s = false) ∧
    (validate_solana_address s = true ↔
      (32 ≤ s.length ∧ s.length ≤ 44 ∧ ∀ c ∈ s.data, c ∈ valid_chars)) := by
  have hiff : validate_solana_address s = true ↔
      (32 ≤ s.length ∧ s.length ≤ 44 ∧ ∀ c ∈ s.data, c ∈ valid_chars) := by
    unfold validate_solana_address
    split_ifs with h1 h2
    · simp only [Bool.or_eq_true, beq_iff_eq, decide_eq_true_eq] at h1
      constructor
      · intro h; exact absurd h (by simp)
      · rintro ⟨ha, hb, -⟩; omega
    · simp only [Bool.not_eq_true', List.all_eq_false, decide_eq_true_eq] at h2
      constructor
      · intro h; exact absurd h (by simp)
      · rintro ⟨-, -, hall⟩
        obtain ⟨c, hc, hnot⟩ := h2
        exact absurd (hall c hc) hnot
    · simp only [Bool.or_eq_true, beq_iff_eq, decide_eq_true_eq] at h1
      push_neg at h1
      simp only [Bool.not_eq_true', List.all_eq_false, decide_eq_true_eq] at h2
      push_neg at h2
      constructor
      · intro _
        exact ⟨by omega, by omega, fun c hc => h2 c hc⟩
      · intro _; rfl
  have hfalse : ∀ (h : ¬ (32 ≤ s.length ∧ s.length ≤ 44 ∧ ∀ c ∈ s.data, c ∈ valid_chars)),
      validate_solana_address s = false := by
    intro h
    cases hv : validate_solana_address s with
    | false => rfl
    | true => exact absurd (hiff.mp hv) h
  refine ⟨?_, ?_, ?_, hiff⟩
  · intro h
    exact hfalse (by rintro ⟨ha, hb, -⟩; omega)
  · rintro ⟨c, hc, hnot⟩
    exact hfalse (by rintro ⟨-, -, hall⟩; exact hnot (hall c hc))
  · rintro ⟨c, hc, hc0⟩
    refine hfalse ?_
    rintro ⟨-, -, hall⟩
    have hmem := hall c hc
    rcases hc0 with rfl | rfl | rfl | rfl <;> revert hmem <;> decide

/-- C9 witness: the all-`1` string of length 32 validates; a 31-character
string and a string containing `0` are rejected via the theorem. -/
theorem validate_solana_address_spec_witness :
    validate_solana_address "11111111111111111111111111111111" = true ∧
    validate_solana_address "1111111111111111111111111111111" = false ∧
    validate_solana_address "01111111111111111111111111111111" = false :=
  ⟨(validate_solana_address_spec "11111111111111111111111111111111").2.2.2.mpr
      ⟨by decide, by decide, by decide⟩,
   (validate_solana_address_spec "1111111111111111111111111111111").1 (by decide),
   (validate_solana_address_spec "01111111111111111111111111111111").2.2.1
      ⟨'0', by decide, Or.inl rfl⟩⟩

/-- C7: the derived letter grade is `A+` for scores `≥ 80`, `A` on `[70,80)`,
`B` on `[60,70)`, `C` on `[50,60)`, `D` on `[40,50)`, `F` below `40`;
concretely 85, 75, 65, 55, 45, 35 map to `A+`, `A`, `B`, `C`, `D`, `F`. -/
theorem get_credibility_grade_spec :
    (∀ s : ℚ,
      (80 ≤ s → get_credibility_grade s = "A+") ∧
      (70 ≤ s ∧ s < 80 → get_credibility_grade s = "A") ∧
      (60 ≤ s ∧ s < 70 → get_credibility_grade s = "B") ∧
      (50 ≤ s ∧ s < 60 → get_credibility_grade s = "C") ∧
      (40 ≤ s ∧ s < 50 → get_credibility_grade s = "D") ∧
      (s < 40 → get_credibility_grade s = "F")) ∧
    get_credibility_grade 85 = "A+" ∧ get_credibility_grade 75 = "A" ∧
    get_credibility_grade 65 = "B" ∧ get_credibility_grade 55 = "C" ∧
    get_credibility_grade 45 = "D" ∧ get_credibility_grade 35 = "F" := by
  have hmain : ∀ s : ℚ,
      (80 ≤ s → get_credibility_grade s = "A+") ∧
      (70 ≤ s ∧ s < 80 → get_credibility_grade s = "A") ∧
      (60 ≤ s ∧ s < 70 → get_credibility_grade s = "B") ∧
      (50 ≤ s ∧ s < 60 → get_credibility_grade s = "C") ∧
      (40 ≤ s ∧ s < 50 → get_credibility_grade s = "D") ∧
      (s < 40 → get_credibility_grade s = "F") := by
    intro s
    unfold get_credibility_grade
    refine ⟨?_, ?_, ?_, ?_, ?_, ?_⟩ <;> intro h <;>
      split_ifs with h1 h2 h3 h4 h5 <;> first | rfl | (exfalso; rcases h with ⟨h, h'⟩ <;> linarith) | (exfalso; linarith)
  refine ⟨hmain, ?_, ?_, ?_, ?_, ?_, ?_⟩
  · exact (hmain 85).1 (by norm_num)
  · exact (hmain 75).2.1 (by norm_num)
  · exact (hmain 65).2.2.1 (by norm_num)
  · exact (hmain 55).2.2.2.1 (by norm_num)
  · exact (hmain 45).2.2.2.2.1 (by norm_num)
  · exact (hmain 35).2.2.2.2.2 (by norm_num)

/-- C7 witness: the general clauses applied at score 85. -/
theorem get_credibility_grade_spec_witness :
    (80 ≤ (85:ℚ)) ∧ get_credibility_grade 85 = "A+" :=
  ⟨by norm_num, (get_credibility_grade_spec.1 85).1 (by norm_num)⟩

/-- C2: for sub-scores in `[0,1]` and any verified flag,
`calculate_match_score` returns either exactly `0` or a value in
`[0.25, 0.95]`, and therefore the Matching Service's inclusion test
`score > 0.1` holds if and only if the score is nonzero. -/
theorem calculate_match_score_range_spec (s l d e : ℚ) (v : Bool)
    (hs : 0 ≤ s ∧ s ≤ 1) (hl : 0 ≤ l ∧ l ≤ 1)
    (hd : 0 ≤ d ∧ d ≤ 1) (he : 0 ≤ e ∧ e ≤ 1) :
    (calculate_match_score s l d e v = 0 ∨
      (25/100 ≤ calculate_match_score s l d e v ∧
        calculate_match_score s l d e v ≤ 95/100)) ∧
    (1/10 < calculate_match_score s l d e v ↔ calculate_match_score s l d e v ≠ 0) := by
  have hrange := cap_and_threshold_range (raw_weighted_score s l d e v)
  have heq : calculate_match_score s l d e v =
      cap_and_threshold (raw_weighted_score s l d e v) := rfl
  rw [heq]
  refine ⟨hrange, ?_, ?_⟩
  · intro h hzero
    rw [hzero] at h
    norm_num at h
  · intro h
    rcases hrange with h0 | ⟨hlo, _⟩
    · exact absurd h0 h
    · linarith

/-- C2 witness: at skills 1, location 0.5, degree 0, experience 0,
unverified (the shape the service feeds the helper), the score is nonzero and
above the 0.1 threshold. -/
theorem calculate_match_score_range_spec_witness :
    ((0:ℚ) ≤ 1 ∧ (1:ℚ) ≤ 1) ∧
    (calculate_match_score 1 (1/2) 0 0 false = 0 ∨
      (25/100 ≤ calculate_match_score 1 (1/2) 0 0 false ∧
        calculate_match_score 1 (1/2) 0 0 false ≤ 95/100)) ∧
    (1/10 < calculate_match_score 1 (1/2) 0 0 false ↔
      calculate_match_score 1 (1/2) 0 0 false ≠ 0) :=
  ⟨⟨by norm_num, le_refl 1⟩,
    calculate_match_score_range_spec 1 (1/2) 0 0 false
      ⟨by norm_num, le_refl 1⟩ ⟨by norm_num, by norm_num⟩
      ⟨le_refl 0, by norm_num⟩ ⟨le_refl 0, by norm_num⟩⟩

/-- C8: the weights of `calculate_match_score` sum to 1, and the result is
monotone non-decreasing in each sub-score and in the verified flag, despite
the 0.95 cap, the below-0.25 zeroing and the 3-decimal rounding. -/
theorem calculate_match_score_monotone_spec :
    ((40:ℚ)/100 + 20/100 + 20/100 + 10/100 + 10/100 = 1) ∧
    (∀ s s' l d e : ℚ, ∀ v : Bool, s ≤ s' →
      calculate_match_score s l d e v ≤ calculate_match_score s' l d e v) ∧
    (∀ s l l' d e : ℚ, ∀ v : Bool, l ≤ l' →
      calculate_match_score s l d e v ≤ calculate_match_score s l' d e v) ∧
    (∀ s l d d' e : ℚ, ∀ v : Bool, d ≤ d' →
      calculate_match_score s l d e v ≤ calculate_match_score s l d' e v) ∧
    (∀ s l d e e' : ℚ, ∀ v : Bool, e ≤ e' →
      calculate_match_score s l d e v ≤ calculate_match_score s l d e' v) ∧
    (∀ s l d e : ℚ,
      calculate_match_score s l d e false ≤ calculate_match_score s l d e true) := by
  refine ⟨by norm_num, ?_, ?_, ?_, ?_, ?_⟩
  · intro s s' l d e v h
    apply cap_and_threshold_mono
    unfold raw_weighted_score
    have := mul_le_mul_of_nonneg_right h (show (0:ℚ) ≤ 40/100 by norm_num)
    linarith
  · intro s l l' d e v h
    apply cap_and_threshold_mono
    unfold raw_weighted_score
    have := mul_le_mul_of_nonneg_right h (show (0:ℚ) ≤ 20/100 by norm_num)
    linarith
  · intro s l d d' e v h
    apply cap_and_threshold_mono
    unfold raw_weighted_score
    have := mul_le_mul_of_nonneg_right h (show (0:ℚ) ≤ 20/100 by norm_num)
    linarith
  · intro s l d e e' v h
    apply cap_and_threshold_mono
    unfold raw_weighted_score
    have := mul_le_mul_of_nonneg_right h (show (0:ℚ) ≤ 10/100 by norm_num)
    linarith
  · intro s l d e
    apply cap_and_threshold_mono
    unfold raw_weighted_score
    norm_num

/-- C8 witness: the skills-argument monotonicity applied at concrete inputs. -/
theorem calculate_match_score_monotone_spec_witness :
    ((1:ℚ)/2 ≤ 1) ∧
    calculate_match_score (1/2) (1/2) 0 0 false ≤ calculate_match_score 1 (1/2) 0 0 false :=
  ⟨by norm_num,
    calculate_match_score_monotone_spec.2.1 (1/2) 1 (1/2) 0 0 false (by norm_num)⟩

theorem calculate_skills_match_fast_eval (a : String) (as : List String)
    (b : String) (bs : List String) :
    calculate_skills_match_fast (a :: as) (b :: bs) =
      (if skills_match_fraction (a :: as) (b :: bs) = 0 then 1/5
       else skills_match_fraction (a :: as) (b :: bs)) := rfl

/-- C3 counterexample: for required skills `["python"]` and the non-empty,
non-overlapping user skill set `{"java"}`, `_calculate_skills_match_fast`
returns `0.2`, not the `0.3` the claim asserts for a user who has skills but
meets no requirement (`0.3` is in fact the empty-user-skill-set result). -/
theorem calculate_skills_match_fast_counterexample :
    calculate_skills_match_fast ["python"] ["java"] = 1/5 ∧ ((1:ℚ)/5 ≠ 3/10) := by
  constructor
  · have h : ((["python"].map lowerStr).dedup.filter
        (fun s => (["java"] : List String).contains s)).length = 0 := by decide
    unfold calculate_skills_match_fast
    simp only [List.isEmpty_cons, Bool.false_eq_true, if_false, h]
    norm_num
  · norm_num

/-- C3 amended: `_calculate_skills_match_fast` returns `1.0` when the
required list is empty; `0.3` when the required list is non-empty and the
user's skill set is EMPTY; otherwise the fraction of (deduplicated,
lower-cased) required skills present in the user's set, with floor `0.2`
when the user has skills but the fraction is zero; the result is never 0. -/
theorem calculate_skills_match_fast_spec (required_skills user_skills_set : List String) :
    (required_skills = [] →
      calculate_skills_match_fast required_skills user_skills_set = 1) ∧
    (required_skills ≠ [] → user_skills_set = [] →
      calculate_skills_match_fast required_skills user_skills_set = 3/10) ∧
    (required_skills ≠ [] → user_skills_set ≠ [] →
      skills_match_fraction required_skills user_skills_set = 0 →
      calculate_skills_match_fast required_skills user_skills_set = 1/5) ∧
    (required_skills ≠ [] → user_skills_set ≠ [] →
      skills_match_fraction required_skills user_skills_set ≠ 0 →
      calculate_skills_match_fast required_skills user_skills_set =
        skills_match_fraction required_skills user_skills_set) ∧
    0 < calculate_skills_match_fast required_skills user_skills_set := by
  rcases required_skills with - | ⟨a, as⟩
  · exact ⟨fun _ => rfl, fun h => absurd rfl h, fun h => absurd rfl h,
      fun h => absurd rfl h, by norm_num [calculate_skills_match_fast]⟩
  rcases user_skills_set with - | ⟨b, bs⟩
  · refine ⟨fun h => (nomatch h), fun _ _ => rfl, fun _ h => absurd rfl h,
      fun _ h => absurd rfl h, ?_⟩
    have h3 : calculate_skills_match_fast (a :: as) [] = 3/10 := rfl
    rw [h3]; norm_num
  refine ⟨fun h => (nomatch h), fun _ h => (nomatch h), ?_, ?_, ?_⟩
  · intro _ _ h0
    rw [calculate_skills_match_fast_eval, if_pos h0]
  · intro _ _ h0
    rw [calculate_skills_match_fast_eval, if_neg h0]
  · rw [calculate_skills_match_fast_eval]
    by_cases h0 : skills_match_fraction (a :: as) (b :: bs) = 0
    · rw [if_pos h0]; norm_num
    · rw [if_neg h0]
      have hden : (0:ℚ) < ((a :: as).length : ℚ) := by
        exact_mod_cast Nat.succ_pos as.length
      have hnum : (0:ℚ) ≤ ((((a :: as).map lowerStr).dedup.filter
          (fun s => (b :: bs).contains s)).length : ℚ) := Nat.cast_nonneg _
      have hge : 0 ≤ skills_match_fraction (a :: as) (b :: bs) :=
        div_nonneg hnum hden.le
      exact lt_of_le_of_ne hge (Ne.symm h0)

/-- C3 amended witness: required `["python"]` with disjoint user skills
`["java"]` yields the 0.2 floor via the theorem. -/
theorem calculate_skills_match_fast_spec_witness :
    (["python"] ≠ ([] : List String)) ∧ (["java"] ≠ ([] : List String)) ∧
    calculate_skills_match_fast ["python"] ["java"] = 1/5 :=
  ⟨by decide, by decide,
    (calculate_skills_match_fast_spec ["python"] ["java"]).2.2.1
      (by decide) (by decide)
      (by
        have h : ((["python"].map lowerStr).dedup.filter
            (fun s => (["java"] : List String).contains s)).length = 0 := by decide
        unfold skills_match_fraction
        rw [h]
        norm_num)⟩

theorem find?_key_eq_of_mem_nodup {α : Type} (key : α → Nat) (l : List α)
    (hnd : (l.map key).Nodup) {a : α} (ha : a ∈ l) (k : Nat) (hk : key a = k) :
    l.find? (fun x => key x == k) = some a := by
  induction l with
  | nil => cases ha
  | cons b bs ih =>
    rw [List.map_cons, List.nodup_cons] at hnd
    rcases List.mem_cons.mp ha with rfl | hmem
    · exact List.find?_cons_of_pos _ (by simp [hk])
    · have hkb : ¬ ((fun x => key x == k) b) = true := by
        simp only [beq_iff_eq]
        intro hbk
        apply hnd.1
        rw [hbk, ← hk]
        exact List.mem_map_of_mem key hmem
      rw [List.find?_cons_of_neg _ (by simpa using hkb)]
      exact ih hnd.2 hmem

theorem founder_verified_iff (users : List UserRow) (fid : Nat)
    (hnd : (users.map (fun u => u.id)).Nodup) :
    ((users.find? (fun u => u.id == fid)).elim false
       (fun f => f.verified_on_chain == some "verified") = true) ↔
      ∃ f ∈ users, f.id = fid ∧ f.verified_on_chain = some "verified" := by
  constructor
  · intro h
    cases hf : users.find? (fun u => u.id == fid) with
    | none => rw [hf] at h; cases h
    | some f =>
      rw [hf] at h
      simp only [Option.elim_some, beq_iff_eq] at h
      refine ⟨f, List.mem_of_find?_eq_some hf, ?_, h⟩
      have := List.find?_some hf
      simpa using this
  · rintro ⟨f, hmem, hid, hver⟩
    rw [find?_key_eq_of_mem_nodup (fun u => u.id) users hnd hmem fid hid]
    simp [hver]

theorem find?_updateFirst {α : Type} (p : α → Bool) (f : α → α) (l : List α) (a : α)
    (h : l.find? p = some a) (hf : p (f a) = true) :
    (updateFirst p f l).find? p = some (f a) := by
  induction l with
  | nil => cases h
  | cons b bs ih =>
    by_cases hb : p b = true
    · rw [List.find?_cons_of_pos _ hb] at h
      injection h with h
      subst h
      unfold updateFirst
      rw [if_pos hb]
      exact List.find?_cons_of_pos _ hf
    · rw [List.find?_cons_of_neg _ (by simpa using hb)] at h
      unfold updateFirst
      rw [if_neg hb, List.find?_cons_of_neg _ (by simpa using hb)]
      exact ih h

theorem onchain_truthy_iff (o : Option String) :
    (o.elim false (fun s => decide (s ≠ "")) = true) ↔ (o ≠ none ∧ o ≠ some "") := by
  cases o <;> simp

/-- C1 amended: for every database state and every startup row present in it,
`calculate_startup_credibility` returns, and persists onto the startup row,
the 2-decimal rounding of `min(40, employees*8)` plus `20` if the founder is
on-chain verified else `0`, plus `min(30, total_investment/10000*30)`, plus
`10` if the transaction signature is non-null AND non-empty (Python
truthiness: `None` and `""` are both falsy) else `0`; the result never
exceeds 100.  (The concrete 5-employee / verified-founder / 10,000-USDC /
signed instance evaluating to exactly 100.0 is the witness theorem.) -/
theorem calculate_startup_credibility_spec (db : DB) (sid : Nat) (st : StartupRow)
    (husers : (db.users.map (fun u => u.id)).Nodup)
    (hfind : db.startups.find? (fun s => s.id == sid) = some st) :
    (calculate_startup_credibility db sid).2.credibility_score =
      round2 (min 40 (((st.employees_verified.getD 0 : ℕ) : ℚ) * 8) +
        (if ∃ f ∈ db.users, f.id = st.founder_id ∧ f.verified_on_chain = some "verified"
          then (20:ℚ) else 0) +
        min 30 ((((db.investments.filter (fun i => i.startup_id == sid)).map
            (fun i => i.amount)).sum) / 10000 * 30) +
        (if st.transaction_signature ≠ none ∧ st.transaction_signature ≠ some ""
          then (10:ℚ) else 0)) ∧
    ((calculate_startup_credibility db sid).1).startups.find? (fun s => s.id == sid) =
      some { st with
        credibility_score := (calculate_startup_credibility db sid).2.credibility_score } ∧
    (calculate_startup_credibility db sid).2.credibility_score ≤ 100 := by
  have hpst : (st.id == sid) = true := by
    have := List.find?_some hfind
    simpa using this
  refine ⟨?_, ?_, ?_⟩
  · simp only [calculate_startup_credibility, hfind]
    rw [if_congr (founder_verified_iff db.users st.founder_id husers) rfl rfl,
      if_congr (onchain_truthy_iff st.transaction_signature) rfl rfl]
  · simp only [calculate_startup_credibility, hfind]
    exact find?_updateFirst _ _ db.startups st hfind hpst
  · simp only [calculate_startup_credibility, hfind]
    have h1 : min (40:ℚ) (((st.employees_verified.getD 0 : ℕ) : ℚ) * 8) ≤ 40 :=
      min_le_left _ _
    have h2 : (if (db.users.find? (fun u => u.id == st.founder_id)).elim false
        (fun f => f.verified_on_chain == some "verified") = true
          then (20:ℚ) else 0) ≤ 20 := by split <;> norm_num
    have h3 : min (30:ℚ) ((((db.investments.filter (fun i => i.startup_id == sid)).map
        (fun i => i.amount)).sum) / 10000 * 30) ≤ 30 := min_le_left _ _
    have h4 : (if st.transaction_signature.elim false (fun s => decide (s ≠ "")) = true
        then (10:ℚ) else 0) ≤ 10 := by
      split <;> norm_num
    have htot := add_le_add (add_le_add (add_le_add h1 h2) h3) h4
    calc round2 _ ≤ round2 100 := round2_mono (le_trans htot (by norm_num))
      _ = 100 := by rw [round2_eval 10000 100 (by norm_num)]; norm_num

/-- C1 witness: on `dbHundred` (5 verified employees, verified founder,
exactly 10,000 USDC invested, non-null signature) the hypotheses hold and the
computed and persisted credibility score is exactly 100. -/
theorem calculate_startup_credibility_spec_witness :
    (dbHundred.users.map (fun u => u.id)).Nodup ∧
    dbHundred.startups.find? (fun s => s.id == 1) =
      some { id := 1, founder_id := 1, employees_verified := some 5,
             credibility_score := 0, transaction_signature := some "sigabc" } ∧
    (calculate_startup_credibility dbHundred 1).2.credibility_score = 100 := by
  have hnd : (dbHundred.users.map (fun u => u.id)).Nodup := by decide
  have hf : dbHundred.startups.find? (fun s => s.id == 1) =
      some { id := 1, founder_id := 1, employees_verified := some 5,
             credibility_score := 0, transaction_signature := some "sigabc" } := rfl
  refine ⟨hnd, hf, ?_⟩
  have hmain := (calculate_startup_credibility_spec dbHundred 1 _ hnd hf).1
  dsimp only at hmain
  rw [hmain]
  have hex : ∃ f ∈ dbHundred.users, f.id = 1 ∧ f.verified_on_chain = some "verified" :=
    ⟨{ id := 1, verified_on_chain := some "verified" }, by simp [dbHundred], rfl, rfl⟩
  rw [if_pos hex]
  have hsig : (some "sigabc" : Option String) ≠ none ∧
      (some "sigabc" : Option String) ≠ some "" := by decide
  rw [if_pos hsig]
  have hsum : ((dbHundred.investments.filter (fun i => i.startup_id == 1)).map
      (fun i => i.amount)).sum = 10000 := by
    simp [dbHundred]
  rw [hsum]
  norm_num [min_def]
  rw [round2_eval 10000 100 (by norm_num)]
  norm_num

/-- C1 counterexample: on `dbEmptySig` the startup's transaction signature is
non-null (`some ""`, so `isSome`), yet the computed credibility score is `0`,
not the `10` the claim's "plus 10 if the transaction signature is non-null"
requires: the source's guard `10 if startup.transaction_signature else 0` is
Python truthiness, under which the empty string is falsy. -/
theorem calculate_startup_credibility_counterexample :
    ((dbEmptySig.startups.find? (fun s => s.id == 1)).map
      (fun st => st.transaction_signature.isSome)) = some true ∧
    (calculate_startup_credibility dbEmptySig 1).2.credibility_score = 0 := by
  constructor
  · rfl
  · have hf : dbEmptySig.startups.find? (fun s => s.id == 1) =
        some { id := 1, founder_id := 1, employees_verified := some 0,
               credibility_score := 0, transaction_signature := some "" } := rfl
    have hfu : dbEmptySig.users.find? (fun u => u.id == 1) =
        some { id := 1, verified_on_chain := none } := rfl
    have hsum : ((dbEmptySig.investments.filter (fun i => i.startup_id == 1)).map
        (fun i => i.amount)).sum = 0 := rfl
    simp only [calculate_startup_credibility, hf]
    dsimp only
    rw [hfu, hsum]
    simp only [Option.elim_some]
    norm_num [min_def]
    rw [round2_eval 0 0 (by norm_num)]
    norm_num

/-- C10: when no startup row matches the requested id,
`calculate_startup_credibility` leaves the database unchanged and returns a
zero score with an empty factor list and no grade field — whereas the found
case always carries a grade. -/
theorem calculate_startup_credibility_not_found (db : DB) (sid : Nat)
    (hfind : db.startups.find? (fun s => s.id == sid) = none) :
    (calculate_startup_credibility db sid).1 = db ∧
    (calculate_startup_credibility db sid).2.credibility_score = 0 ∧
    (calculate_startup_credibility db sid).2.factors = [] ∧
    (calculate_startup_credibility db sid).2.grade = none ∧
    (∀ (db' : DB) (sid' : Nat) (st : StartupRow),
      db'.startups.find? (fun s => s.id == sid') = some st →
      ((calculate_startup_credibility db' sid').2.grade).isSome = true) := by
  refine ⟨?_, ?_, ?_, ?_, ?_⟩
  · simp only [calculate_startup_credibility, hfind]
  · simp only [calculate_startup_credibility, hfind]
  · simp only [calculate_startup_credibility, hfind]
  · simp only [calculate_startup_credibility, hfind]
  · intro db' sid' st h
    simp only [calculate_startup_credibility, h, Option.isSome_some]

/-- C10 witness: `dbHundred` has no startup with id 99, and the call with
that id leaves the state unchanged and returns the gradeless zero payload. -/
theorem calculate_startup_credibility_not_found_witness :
    dbHundred.startups.find? (fun s => s.id == 99) = none ∧
    (calculate_startup_credibility dbHundred 99).1 = dbHundred ∧
    (calculate_startup_credibility dbHundred 99).2.grade = none :=
  ⟨rfl, (calculate_startup_credibility_not_found dbHundred 99 rfl).1,
    (calculate_startup_credibility_not_found dbHundred 99 rfl).2.2.2.1⟩

theorem startsWithChars_length (p l : List Char) (h : startsWithChars p l = true) :
    p.length ≤ l.length := by
  induction p generalizing l with
  | nil => simp
  | cons c cs ih =>
    cases l with
    | nil => simp [startsWithChars] at h
    | cons d ds =>
      simp only [startsWithChars, Bool.and_eq_true] at h
      simpa [List.length_cons] using Nat.succ_le_succ (ih ds h.2)

theorem startsWithChars_of_append (p q l : List Char)
    (h : startsWithChars (p ++ q) l = true) : startsWithChars p l = true := by
  induction p generalizing l with
  | nil => rfl
  | cons c cs ih =>
    cases l with
    | nil => simp [startsWithChars] at h
    | cons d ds =>
      simp only [List.cons_append, startsWithChars, Bool.and_eq_true] at h
      simp only [startsWithChars, Bool.and_eq_true]
      exact ⟨h.1, ih ds h.2⟩

theorem sentinel_imp_like (s : String) (h : starts_with_mock_sentinel s = true) :
    tx_like_mock s = true := by
  unfold starts_with_mock_sentinel at h
  unfold tx_like_mock
  have hsplit : "mock_".data = "mock".data ++ ['_'] := rfl
  rw [hsplit] at h
  have h1 := startsWithChars_of_append _ _ _ h
  have h2 := startsWithChars_length _ _ h
  have h5 : ("mock".data ++ ['_']).length = 5 := rfl
  rw [h5] at h2
  rw [h1]
  simpa using h2

/-- C6 counterexample: with a single investment whose signature is
`mocked_tx_abc` — which does not start with `mock_` — the cleanup script
nevertheless deletes it (`_` in the LIKE pattern is a one-character
wildcard), so the script does not delete only `mock_`-prefixed rows. -/
theorem cleanup_mock_investments_counterexample :
    (cleanup_mock_investments dbMockedLike).1.investments = [] ∧
    starts_with_mock_sentinel "mocked_tx_abc" = false ∧
    dbMockedLike.investments.length = 1 := by
  refine ⟨rfl, ?_, rfl⟩
  decide

/-- C6 amended: the cleanup script deletes exactly the Investment rows whose
`tx_signature` matches the SQL LIKE pattern `mock_%` — `mock` followed by at
least one arbitrary character, `_` being a single-character wildcard — which
includes every row starting with the literal `mock_`; all other investment
rows (hence any total over them) and every other table are unchanged, and if
no row matches, the whole state is returned unchanged. -/
theorem cleanup_mock_investments_spec (db : DB) :
    ((cleanup_mock_investments db).1.investments =
      db.investments.filter (fun inv => !(tx_like_mock inv.tx_signature))) ∧
    (∀ inv : InvestmentRow, inv ∈ (cleanup_mock_investments db).1.investments ↔
      (inv ∈ db.investments ∧ ¬ tx_like_mock inv.tx_signature = true)) ∧
    (∀ s : String, starts_with_mock_sentinel s = true → tx_like_mock s = true) ∧
    ((cleanup_mock_investments db).1.users = db.users ∧
     (cleanup_mock_investments db).1.startups = db.startups ∧
     (cleanup_mock_investments db).1.jobs = db.jobs ∧
     (cleanup_mock_investments db).1.cvs = db.cvs ∧
     (cleanup_mock_investments db).1.job_matches = db.job_matches ∧
     (cleanup_mock_investments db).1.job_applications = db.job_applications) ∧
    ((∀ inv ∈ db.investments, tx_like_mock inv.tx_signature = false) →
      cleanup_mock_investments db = (db, 0)) := by
  have hnomock : (∀ inv ∈ db.investments, tx_like_mock inv.tx_signature = false) →
      cleanup_mock_investments db = (db, 0) := by
    intro hall
    have hempty : db.investments.filter (fun inv => tx_like_mock inv.tx_signature) = [] :=
      List.filter_eq_nil_iff.mpr (fun inv hm => by simp [hall inv hm])
    unfold cleanup_mock_investments
    rw [hempty]
    rfl
  have hinv : (cleanup_mock_investments db).1.investments =
      db.investments.filter (fun inv => !(tx_like_mock inv.tx_signature)) := by
    unfold cleanup_mock_investments
    by_cases hm : (db.investments.filter (fun inv => tx_like_mock inv.tx_signature)).isEmpty
    · rw [if_pos hm]
      have hempty := List.isEmpty_iff.mp hm
      have hall : ∀ inv ∈ db.investments, ¬ tx_like_mock inv.tx_signature = true :=
        List.filter_eq_nil_iff.mp hempty
      exact (List.filter_eq_self.mpr (fun inv hm' => by simp [hall inv hm'])).symm
    · rw [if_neg hm]
  refine ⟨hinv, ?_, sentinel_imp_like, ?_, hnomock⟩
  · intro inv
    rw [hinv, List.mem_filter]
    simp
  · unfold cleanup_mock_investments
    by_cases hm : (db.investments.filter (fun inv => tx_like_mock inv.tx_signature)).isEmpty <;>
      simp [hm]

/-- C6 amended witness: on a state with one `mock_`-prefixed and one real
investment, the surviving table is exactly the real row, the sentinel row is
matched by the LIKE pattern, and the other tables are untouched. -/
theorem cleanup_mock_investments_spec_witness :
    starts_with_mock_sentinel "mock_12345" = true ∧
    tx_like_mock "mock_12345" = true ∧
    (cleanup_mock_investments dbMockMixed).1.investments =
      dbMockMixed.investments.filter (fun inv => !(tx_like_mock inv.tx_signature)) :=
  ⟨by decide, (cleanup_mock_investments_spec dbMockMixed).2.2.1 "mock_12345" (by decide),
    (cleanup_mock_investments_spec dbMockMixed).1⟩

/-- C5 counterexample: deleting founder 1 on `dbFounder` removes user 2's
application (and match) on the founder's startup's job, but the returned
`deleted` counts report `0` applications (and `0` matches), so the response
does not give per-category counts of the removed rows. -/
theorem delete_user_counterexample :
    ((delete_user dbFounder 1).map
      (fun r => (r.2.job_applications, r.1.job_applications.length))) = some (0, 0) ∧
    dbFounder.job_applications.length = 1 ∧
    ((delete_user dbFounder 1).map
      (fun r => (r.2.job_matches, r.1.job_matches.length))) = some (0, 0) ∧
    dbFounder.job_matches.length = 1 :=
  ⟨rfl, rfl, rfl, rfl⟩

/-- C5 amended: for every user present in the state, the delete endpoint
atomically removes the user's own CVs, applications, matches and investments,
every startup the user founded, those startups' jobs, and those jobs' matches
and applications, and finally the user row; the reported counts are the
numbers of rows directly linked to the user per category (own CVs,
applications, matches, investments, founded startups) — cascade deletions
under the startups' jobs are not included in the counts.  The embedding
returns the entire post-commit state at once, so no partial deletion is
observable (the source wraps the sequence in one transaction with rollback
on failure). -/
theorem delete_user_spec (db : DB) (uid : Nat) (u : UserRow)
    (hfind : db.users.find? (fun x => x.id == uid) = some u) :
    ∃ db' counts, delete_user db uid = some (db', counts) ∧
      (∀ x : UserRow, x ∈ db'.users ↔ (x ∈ db.users ∧ ¬ x.id = uid)) ∧
      (∀ c : CVRow, c ∈ db'.cvs ↔ (c ∈ db.cvs ∧ ¬ c.user_id = uid)) ∧
      (∀ i : InvestmentRow, i ∈ db'.investments ↔
        (i ∈ db.investments ∧ ¬ i.investor_id = uid)) ∧
      (∀ s : StartupRow, s ∈ db'.startups ↔ (s ∈ db.startups ∧ ¬ s.founder_id = uid)) ∧
      (∀ j : JobRow, j ∈ db'.jobs ↔ (j ∈ db.jobs ∧
        ¬ ∃ s, s ∈ db.startups ∧ s.founder_id = uid ∧ s.id = j.startup_id)) ∧
      (∀ m : JobMatchRow, m ∈ db'.job_matches ↔ (m ∈ db.job_matches ∧ ¬ m.user_id = uid ∧
        ¬ ∃ j, j ∈ db.jobs ∧
          (∃ s, s ∈ db.startups ∧ s.founder_id = uid ∧ s.id = j.startup_id) ∧
          j.id = m.job_id)) ∧
      (∀ a : JobApplicationRow, a ∈ db'.job_applications ↔
        (a ∈ db.job_applications ∧ ¬ a.user_id = uid ∧
        ¬ ∃ j, j ∈ db.jobs ∧
          (∃ s, s ∈ db.startups ∧ s.founder_id = uid ∧ s.id = j.startup_id) ∧
          j.id = a.job_id)) ∧
      counts = { cvs := (db.cvs.filter (fun c => c.user_id == uid)).length,
                 job_applications :=
                   (db.job_applications.filter (fun a => a.user_id == uid)).length,
                 job_matches := (db.job_matches.filter (fun m => m.user_id == uid)).length,
                 investments := (db.investments.filter (fun i => i.investor_id == uid)).length,
                 startups := (db.startups.filter (fun s => s.founder_id == uid)).length } := by
  refine ⟨{ users := db.users.filter (fun x => !(x.id == uid)),
            startups := db.startups.filter (fun s => !(s.founder_id == uid)),
            jobs := db.jobs.filter (fun j =>
              !((db.startups.filter (fun s => s.founder_id == uid)).any
                (fun s => s.id == j.startup_id))),
            cvs := db.cvs.filter (fun c => !(c.user_id == uid)),
            investments := db.investments.filter (fun i => !(i.investor_id == uid)),
            job_matches := db.job_matches.filter (fun m =>
              !(m.user_id == uid) &&
              !((db.jobs.filter (fun j =>
                  (db.startups.filter (fun s => s.founder_id == uid)).any
                    (fun s => s.id == j.startup_id))).any (fun j => j.id == m.job_id))),
            job_applications := db.job_applications.filter (fun a =>
              !(a.user_id == uid) &&
              !((db.jobs.filter (fun j =>
                  (db.startups.filter (fun s => s.founder_id == uid)).any
                    (fun s => s.id == j.startup_id))).any (fun j => j.id == a.job_id))) },
          _, ?_, ?_, ?_, ?_, ?_, ?_, ?_, ?_, rfl⟩
  · unfold delete_user
    rw [hfind]
  · intro x; simp [List.mem_filter]
  · intro c; simp [List.mem_filter]
  · intro i; simp [List.mem_filter]
  · intro s; simp [List.mem_filter]
  · intro j
    simp only [List.mem_filter, Bool.not_eq_true', List.any_eq_false, List.mem_filter,
      Bool.and_eq_true, beq_iff_eq, not_exists, not_and]
    tauto
  · intro m
    simp only [List.mem_filter, Bool.and_eq_true, Bool.not_eq_true', beq_eq_false_iff_ne,
      ne_eq, List.any_eq_false, List.mem_filter, List.any_eq_true, Bool.and_eq_true,
      beq_iff_eq, not_exists, not_and]
    aesop
  · intro a
    simp only [List.mem_filter, Bool.and_eq_true, Bool.not_eq_true', beq_eq_false_iff_ne,
      ne_eq, List.any_eq_false, List.mem_filter, List.any_eq_true, Bool.and_eq_true,
      beq_iff_eq, not_exists, not_and]
    aesop

/-- C5 amended witness: the theorem applied to `dbFounder` and founder 1. -/
theorem delete_user_spec_witness :
    dbFounder.users.find? (fun x => x.id == 1) =
      some { id := 1, verified_on_chain := none } ∧
    ∃ db' counts, delete_user dbFounder 1 = some (db', counts) ∧
      (∀ s : StartupRow, s ∈ db'.startups ↔ (s ∈ dbFounder.startups ∧ ¬ s.founder_id = 1)) := by
  have hf : dbFounder.users.find? (fun x => x.id == 1) =
      some { id := 1, verified_on_chain := none } := rfl
  refine ⟨hf, ?_⟩
  obtain ⟨db', counts, heq, _, _, _, hstart, _⟩ := delete_user_spec dbFounder 1 _ hf
  exact ⟨db', counts, heq, hstart⟩

theorem insertBy_perm (le : α → α → Bool) (a : α) (l : List α) :
    List.Perm (insertBy le a l) (a :: l) := by
  induction l with
  | nil => exact List.Perm.refl _
  | cons b bs ih =>
    simp only [insertBy]
    split
    · exact List.Perm.refl _
    · exact (ih.cons b).trans (List.Perm.swap a b bs)

theorem sortBy_perm (le : α → α → Bool) (l : List α) : List.Perm (sortBy le l) l := by
  induction l with
  | nil => exact List.Perm.refl _
  | cons a as ih => exact (insertBy_perm le a (sortBy le as)).trans (ih.cons a)

theorem muj_candidate_job_ids_nodup (score_fn : JobRow → ℚ) (db : DB)
    (hjobs : (db.jobs.map (fun j => j.id)).Nodup) :
    ((muj_candidate_matches score_fn db).map (fun t => t.job_id)).Nodup := by
  unfold muj_candidate_matches
  rw [List.map_map]
  have hcomp : ((fun t => t.job_id) ∘
      (fun j => ({ job_id := j.id, score := score_fn j } : MatchEntry))) =
        fun j : JobRow => j.id := rfl
  rw [hcomp]
  exact hjobs.sublist
    (((List.filter_sublist _).trans (List.filter_sublist _)).map (fun j : JobRow => j.id))

theorem muj_top_job_ids_nodup (score_fn : JobRow → ℚ) (db : DB) (limit : Nat)
    (hjobs : (db.jobs.map (fun j => j.id)).Nodup) :
    ((muj_top_matches score_fn db limit).map (fun t => t.job_id)).Nodup := by
  have h0 := muj_candidate_job_ids_nodup score_fn db hjobs
  have h1 : ((sortBy (fun a b => decide (b.score ≤ a.score))
      (muj_candidate_matches score_fn db)).map (fun t => t.job_id)).Nodup :=
    ((sortBy_perm _ _).map _).nodup_iff.mpr h0
  exact h1.sublist ((List.take_sublist _ _).map _)

theorem muj_new_matches_spec (db : DB) (uid : Nat) (top : List MatchEntry) :
    ∀ r ∈ muj_new_matches db uid top, r.user_id = uid ∧
      (∃ t ∈ top, t.job_id = r.job_id ∧ t.score = r.score) ∧
      ∀ m ∈ db.job_matches, ¬(m.job_id = r.job_id ∧ m.user_id = uid) := by
  intro r hr
  unfold muj_new_matches at hr
  obtain ⟨t, ht, rfl⟩ := List.mem_map.mp hr
  have ht' := List.mem_filter.mp ht
  refine ⟨rfl, ⟨t, ht'.1, rfl, rfl⟩, ?_⟩
  rintro m hm ⟨hjid, huid⟩
  have hmem : t.job_id ∈ muj_existing_job_ids db uid top := by
    unfold muj_existing_job_ids
    refine List.mem_map.mpr ⟨m, List.mem_filter.mpr ⟨hm, ?_⟩, hjid⟩
    simp only [Bool.and_eq_true, List.any_eq_true, beq_iff_eq]
    exact ⟨⟨t, ht'.1, hjid.symm⟩, huid⟩
  have hcontains : (muj_existing_job_ids db uid top).contains t.job_id = true := by
    simpa [List.contains, List.elem_iff] using hmem
  have hfalse := ht'.2
  rw [hcontains] at hfalse
  cases hfalse

theorem muj_new_pairs_nodup (score_fn : JobRow → ℚ) (db : DB) (uid limit : Nat)
    (hjobs : (db.jobs.map (fun j => j.id)).Nodup) :
    ((muj_new_matches db uid (muj_top_matches score_fn db limit)).map
      (fun r => (r.job_id, r.user_id))).Nodup := by
  have htopn := muj_top_job_ids_nodup score_fn db limit hjobs
  unfold muj_new_matches
  rw [List.map_map]
  have hfiltered : (((muj_top_matches score_fn db limit).filter
      (fun t => !((muj_existing_job_ids db uid
        (muj_top_matches score_fn db limit)).contains t.job_id))).map
          (fun t => t.job_id)).Nodup :=
    htopn.sublist ((List.filter_sublist _).map _)
  have hinj : Function.Injective (fun i => ((i, uid) : Nat × Nat)) := by
    intro a b h
    simpa using congrArg Prod.fst h
  have := hfiltered.map hinj
  rwa [List.map_map] at this

theorem contains_iff_mem {α : Type} [BEq α] [LawfulBEq α] (l : List α) (x : α) :
    l.contains x = true ↔ x ∈ l := by
  unfold List.contains
  exact List.elem_iff

theorem muj_second_run_adds_nothing (score_fn : JobRow → ℚ) (db db2 : DB)
    (uid limit : Nat)
    (h2 : db2.job_matches = db.job_matches ++
      muj_new_matches db uid (muj_top_matches score_fn db limit)) :
    muj_new_matches db2 uid (muj_top_matches score_fn db limit) = [] := by
  unfold muj_new_matches
  rw [List.map_eq_nil_iff, List.filter_eq_nil_iff]
  intro t ht
  simp only [Bool.not_eq_true', Bool.not_eq_false]
  refine (contains_iff_mem _ _).mpr ?_
  by_cases hc : (muj_existing_job_ids db uid
      (muj_top_matches score_fn db limit)).contains t.job_id = true
  · have hold := (contains_iff_mem _ _).mp hc
    unfold muj_existing_job_ids at hold ⊢
    obtain ⟨m, hmf, hmid⟩ := List.mem_map.mp hold
    have hmf' := List.mem_filter.mp hmf
    refine List.mem_map.mpr ⟨m, List.mem_filter.mpr ⟨?_, hmf'.2⟩, hmid⟩
    rw [h2]
    exact List.mem_append_left _ hmf'.1
  · have hcf : (muj_existing_job_ids db uid
        (muj_top_matches score_fn db limit)).contains t.job_id = false :=
      Bool.eq_false_iff.mpr hc
    have htf : t ∈ (muj_top_matches score_fn db limit).filter
        (fun t => !((muj_existing_job_ids db uid
          (muj_top_matches score_fn db limit)).contains t.job_id)) :=
      List.mem_filter.mpr ⟨ht, by rw [hcf]; rfl⟩
    have hrmem : ({ job_id := t.job_id, user_id := uid, score := t.score } : JobMatchRow) ∈
        muj_new_matches db uid (muj_top_matches score_fn db limit) := by
      unfold muj_new_matches
      exact List.mem_map.mpr ⟨t, htf, rfl⟩
    unfold muj_existing_job_ids
    refine List.mem_map.mpr ⟨{ job_id := t.job_id, user_id := uid, score := t.score },
      List.mem_filter.mpr ⟨?_, ?_⟩, rfl⟩
    · rw [h2]
      exact List.mem_append_right _ hrmem
    · simp only [Bool.and_eq_true, List.any_eq_true, beq_iff_eq]
      exact ⟨⟨t, ht, rfl⟩, by trivial⟩

/-- C4: `match_user_to_jobs` persists at most the top `limit` computed
matches, inserts a `JobMatch` row only for `(job, user)` pairs not already
present, keeps `(job_id, user_id)` pairs duplicate-free, and re-running the
operation on the resulting state changes nothing — so any number of runs
leaves at most one row per pair. -/
theorem match_user_to_jobs_spec (score_fn : JobRow → ℚ) (db : DB) (uid limit : Nat)
    (hjobs : (db.jobs.map (fun j => j.id)).Nodup)
    (hpairs : (db.job_matches.map (fun m => (m.job_id, m.user_id))).Nodup) :
    (match_user_to_jobs score_fn db uid limit).2.length ≤ limit ∧
    (∃ added : List JobMatchRow,
      (match_user_to_jobs score_fn db uid limit).1.job_matches =
        db.job_matches ++ added ∧
      added.length ≤ limit ∧
      ∀ r ∈ added, r.user_id = uid ∧
        (∃ t ∈ (match_user_to_jobs score_fn db uid limit).2,
          t.job_id = r.job_id ∧ t.score = r.score) ∧
        ∀ m ∈ db.job_matches, ¬(m.job_id = r.job_id ∧ m.user_id = uid)) ∧
    ((match_user_to_jobs score_fn db uid limit).1.job_matches.map
      (fun m => (m.job_id, m.user_id))).Nodup ∧
    match_user_to_jobs score_fn (match_user_to_jobs score_fn db uid limit).1 uid limit =
      ((match_user_to_jobs score_fn db uid limit).1,
       (match_user_to_jobs score_fn db uid limit).2) := by
  cases hu : db.users.find? (fun u => u.id == uid) with
  | none =>
    have hout : match_user_to_jobs score_fn db uid limit = (db, []) := by
      unfold match_user_to_jobs; rw [hu]
    rw [hout]
    exact ⟨Nat.zero_le _,
      ⟨[], (List.append_nil _).symm, Nat.zero_le _,
        fun r hr => absurd hr (List.not_mem_nil r)⟩,
      hpairs, hout⟩
  | some u0 =>
    have hout : match_user_to_jobs score_fn db uid limit =
        ({ db with job_matches := db.job_matches ++
            muj_new_matches db uid (muj_top_matches score_fn db limit) },
         muj_top_matches score_fn db limit) := by
      unfold match_user_to_jobs; rw [hu]
    rw [hout]
    have hlen : (muj_top_matches score_fn db limit).length ≤ limit := by
      unfold muj_top_matches
      rw [List.length_take]
      exact Nat.min_le_left _ _
    refine ⟨hlen, ?_, ?_, ?_⟩
    · refine ⟨muj_new_matches db uid (muj_top_matches score_fn db limit), rfl, ?_, ?_⟩
      · have h1 := List.length_filter_le
          (fun t => !((muj_existing_job_ids db uid
            (muj_top_matches score_fn db limit)).contains t.job_id))
          (muj_top_matches score_fn db limit)
        unfold muj_new_matches
        rw [List.length_map]
        exact le_trans h1 hlen
      · exact muj_new_matches_spec db uid _
    · show ((db.job_matches ++
        muj_new_matches db uid (muj_top_matches score_fn db limit)).map
          (fun m => (m.job_id, m.user_id))).Nodup
      rw [List.map_append, List.nodup_append]
      refine ⟨hpairs, muj_new_pairs_nodup score_fn db uid limit hjobs, ?_⟩
      intro p hp hpnew
      obtain ⟨m, hm, rfl⟩ := List.mem_map.mp hp
      obtain ⟨r, hrnew, hpr⟩ := List.mem_map.mp hpnew
      have hpr' : (r.job_id, r.user_id) = (m.job_id, m.user_id) := hpr
      have h1 : r.job_id = m.job_id := congrArg Prod.fst hpr'
      have h2 : r.user_id = m.user_id := congrArg Prod.snd hpr'
      have hspec := muj_new_matches_spec db uid _ r hrnew
      exact hspec.2.2 m hm ⟨h1.symm, h2.symm.trans hspec.1⟩
    · show match_user_to_jobs score_fn
        { db with job_matches := db.job_matches ++
                    muj_new_matches db uid (muj_top_matches score_fn db limit) } uid limit =
        ({ db with job_matches := db.job_matches ++
                     muj_new_matches db uid (muj_top_matches score_fn db limit) },
         muj_top_matches score_fn db limit)
      have hu2 : ({ db with job_matches := db.job_matches ++
                              muj_new_matches db uid
                                (muj_top_matches score_fn db limit) } : DB).users.find?
          (fun u => u.id == uid) = some u0 := hu
      unfold match_user_to_jobs
      rw [hu2]
      dsimp only
      have htop2 : muj_top_matches score_fn
          { db with job_matches := db.job_matches ++
                      muj_new_matches db uid (muj_top_matches score_fn db limit) } limit =
            muj_top_matches score_fn db limit := rfl
      have hsecond := muj_second_run_adds_nothing score_fn db
        { db with job_matches := db.job_matches ++
                    muj_new_matches db uid (muj_top_matches score_fn db limit) }
        uid limit rfl
      rw [htop2, hsecond, List.append_nil]

/-- C4 witness: the persistence bounds and idempotence instantiated on
`dbMatchEx` with a constant score function, user 1, default limit 10. -/
theorem match_user_to_jobs_spec_witness :
    ((dbMatchEx.jobs.map (fun j => j.id)).Nodup) ∧
    ((dbMatchEx.job_matches.map (fun m => (m.job_id, m.user_id))).Nodup) ∧
    (match_user_to_jobs (fun _ => (1:ℚ)) dbMatchEx 1 10).2.length ≤ 10 ∧
    match_user_to_jobs (fun _ => (1:ℚ))
        (match_user_to_jobs (fun _ => (1:ℚ)) dbMatchEx 1 10).1 1 10 =
      ((match_user_to_jobs (fun _ => (1:ℚ)) dbMatchEx 1 10).1,
       (match_user_to_jobs (fun _ => (1:ℚ)) dbMatchEx 1 10).2) := by
  have h1 : (dbMatchEx.jobs.map (fun j => j.id)).Nodup := by decide
  have h2 : (dbMatchEx.job_matches.map (fun m => (m.job_id, m.user_id))).Nodup := by decide
  have hs := match_user_to_jobs_spec (fun _ => (1:ℚ)) dbMatchEx 1 10 h1 h2
  exact ⟨h1, h2, hs.1, hs.2.2.2⟩
